import Mathlib

/-!
Verification of the motor-monitoring core (`codesys` module): the per-cycle
modbus register reads, engineering-value derivation, the shared in-memory
history vector, the SQLite persistence sink, the chart renderer's axis-range
computation, and the scheduler loop's locking discipline.

`f64` values are modelled as exact rationals (`ℚ`); where IEEE NaN matters
(the chart renderer's `0.0/0.0` fold seed) a dedicated `FVal` type with an
explicit `nan` constructor is used.  Register words are `Fin 65536`,
matching the 16-bit unsigned registers of the bus.  External collaborators
(the serial transport, the SQLite engine, the plotters drawing backend) are
modelled at their call boundary: the transport as a function from address to
`Except TransportError` word, the store as an append-only list of rows, the
drawing backend as the axis ranges and series handed to it.
-/

namespace codesys

/-- Static motor specification, mirroring `struct MotorSpecs` (all fields f64). -/
structure MotorSpecs where
  rated_power : ℚ
  rated_torque : ℚ
  rated_speed : ℚ
  peak_torque : ℚ
  max_speed : ℚ
deriving DecidableEq

/-- One acquisition cycle's sample, mirroring `struct MotorData`. -/
structure MotorData where
  timestamp : Int
  current_power : ℚ
  current_torque : ℚ
  current_speed : ℚ
  current_heat : ℚ
  current_cycles : ℚ
deriving DecidableEq

/-- Transport-level failure of a modbus register read (I/O error, timeout or
malformed response); the variants are opaque to the monitoring core. -/
inductive TransportError where
  | ioFailure : TransportError
  | timeout : TransportError
  | malformed : TransportError
deriving DecidableEq

/-- Failure of a persistence insert, opaque to the monitoring core. -/
inductive StorageError where
  | writeFailure : StorageError
deriving DecidableEq

/-- `fn calculate_power(volts, amps) -> f64 { volts * amps / 1000.0 }`. -/
def calculate_power (volts : ℚ) (amps : ℚ) : ℚ := volts * amps / 1000

/-- `fn calculate_cycles(torque, period) -> f64 { torque * period }`. -/
def calculate_cycles (torque : ℚ) (period : ℚ) : ℚ := torque * period

/-- `read_modbus_data`: four sequential single-register reads at addresses
0 (voltage), 1 (current), 2 (heat), 3 (speed); each `.unwrap()` in the source
aborts the cycle's derivation on the first failing read, modelled by
propagating the error.  Torque is the in-code literal `10.1` and the period
the in-code literal `1.0`; the wall-clock timestamp is the parameter `now`. -/
def read_modbus_data (bus : Nat → Except TransportError (Fin 65536)) (now : Int) :
    Except TransportError MotorData :=
  match bus 0 with
  | Except.error e => Except.error e
  | Except.ok v0 =>
    match bus 1 with
    | Except.error e => Except.error e
    | Except.ok v1 =>
      match bus 2 with
      | Except.error e => Except.error e
      | Except.ok v2 =>
        match bus 3 with
        | Except.error e => Except.error e
        | Except.ok v3 =>
          let voltage_reading : ℚ := (v0.val : ℚ)
          let current_reading : ℚ := (v1.val : ℚ)
          let heat_reading : ℚ := (v2.val : ℚ)
          let speed_reading : ℚ := (v3.val : ℚ)
          let period : ℚ := 1
          let current_power := calculate_power voltage_reading current_reading
          let current_torque : ℚ := 101 / 10
          let current_cycles := calculate_cycles current_torque period
          Except.ok
            { timestamp := now
              current_power := current_power
              current_torque := current_torque
              current_speed := speed_reading
              current_heat := heat_reading
              current_cycles := current_cycles }

/-- The `(address, count)` requests `read_modbus_data` issues on the bus, in
order: each read is issued only after the previous one succeeded (the source
`.unwrap()`s each result before the next call), and each requests one word. -/
def modbus_read_trace (bus : Nat → Except TransportError (Fin 65536)) :
    List (Nat × Nat) :=
  (0, 1) ::
    match bus 0 with
    | Except.error _ => []
    | Except.ok _ =>
      (1, 1) ::
        match bus 1 with
        | Except.error _ => []
        | Except.ok _ =>
          (2, 1) ::
            match bus 2 with
            | Except.error _ => []
            | Except.ok _ => [(3, 1)]

/-- One row of the `motor_data` table: the six bound columns of the
`INSERT INTO motor_data (...) VALUES (?, ?, ?, ?, ?, ?)` statement (the
auto-assigned `id` primary key is the row's position in the list). -/
structure Row where
  timestamp : Int
  current_power : ℚ
  current_torque : ℚ
  current_speed : ℚ
  current_heat : ℚ
  current_cycles : ℚ
deriving DecidableEq

/-- The row the source binds from a sample, column by column in the order of
the `INSERT` statement. -/
def rowOf (d : MotorData) : Row :=
  { timestamp := d.timestamp
    current_power := d.current_power
    current_torque := d.current_torque
    current_speed := d.current_speed
    current_heat := d.current_heat
    current_cycles := d.current_cycles }

/-- `insert_motor_data`: one `INSERT` appends exactly one row built from the
sample's six fields to the append-only `motor_data` table. -/
def insert_motor_data (store : List Row) (d : MotorData) : List Row :=
  store ++ [rowOf d]

/-- The five pushes the scheduler loop performs on the single shared
`motor_data` vector each cycle, in source order: power, torque, speed, heat,
cycles, all stamped with the sample's timestamp (lines 159 to 163). -/
def append_cycle (buf : List (Int × ℚ)) (d : MotorData) : List (Int × ℚ) :=
  buf ++
    [(d.timestamp, d.current_power), (d.timestamp, d.current_torque),
      (d.timestamp, d.current_speed), (d.timestamp, d.current_heat),
      (d.timestamp, d.current_cycles)]

/-- One scheduler cycle after a successful read: the loop pushes the five
channel values onto the shared vector and spawns `insert_motor_data` as a
detached task whose outcome the loop never observes; a failed insert panics
only inside the detached task, so the store gains no row but the loop state
is built without consulting `outcome`. -/
def scheduler_cycle (buf : List (Int × ℚ)) (store : List Row) (d : MotorData)
    (outcome : Except StorageError Unit) : List (Int × ℚ) × List Row :=
  (append_cycle buf d,
    match outcome with
    | Except.ok _ => insert_motor_data store d
    | Except.error _ => store)

/-- The scheduler loop over a list of cycles, each a derived sample paired
with the (asynchronously discovered) outcome of its persistence insert. -/
def run_cycles : List (MotorData × Except StorageError Unit) →
    List (Int × ℚ) × List Row → List (Int × ℚ) × List Row
  | [], st => st
  | (d, o) :: rest, (buf, store) => run_cycles rest (scheduler_cycle buf store d o)

/-- An `f64` as the chart code observes it: NaN or an exact finite value. -/
inductive FVal where
  | nan : FVal
  | fin : ℚ → FVal
deriving DecidableEq

/-- Rust `f64::max`: ignores NaN, returning the other argument when one
argument is NaN. -/
def fmax : FVal → FVal → FVal
  | FVal.nan, b => b
  | a, FVal.nan => a
  | FVal.fin a, FVal.fin b => FVal.fin (max a b)

/-- The y-axis upper bound `draw_chart` computes:
`data.iter().map(|d| d.1).fold(0.0 / 0.0, f64::max)` — a left fold of
`f64::max` over the values, seeded with `0.0 / 0.0` (NaN). -/
def chart_y_max (data : List (Int × FVal)) : FVal :=
  List.foldl fmax FVal.nan (data.map Prod.snd)

/-- What `draw_chart` does before handing off to the plotters backend:
either it panics (an `.unwrap()` of `None`), or it builds a cartesian chart
whose x range runs from the first to the last timestamp and whose y range
runs from `0.0` to the NaN-seeded fold maximum, and draws the series on it. -/
inductive DrawResult where
  | panic : DrawResult
  | artifact : Int → Int → FVal → FVal → DrawResult
deriving DecidableEq

/-- `draw_chart` on a series: `data.first().unwrap()` and
`data.last().unwrap()` panic on an empty slice; otherwise the axis ranges
`first.0..last.0` and `0.0..fold-max` are handed to the backend (filename,
title and axis labels are passed through to the backend unchanged and do not
affect control flow, so they are not modelled). -/
def draw_chart (data : List (Int × FVal)) : DrawResult :=
  match data.head?, data.getLast? with
  | some f, some l => DrawResult.artifact f.1 l.1 (FVal.fin 0) (chart_y_max data)
  | _, _ => DrawResult.panic

/-- The observable events of one scheduler loop iteration, used to audit the
mutex discipline: acquiring and releasing the `motor_data` lock, pushing one
channel's pair, spawning the persistence task, rendering one channel's chart.
Channels are numbered 0 power, 1 torque, 2 speed, 3 heat, 4 cycles. -/
inductive Ev where
  | lock : Ev
  | push : Nat → Ev
  | spawnPersist : Ev
  | render : Nat → Ev
  | unlock : Ev
deriving DecidableEq

/-- The event order of one loop iteration in the source: the guard from
`motor_data.lock().await` is bound for the rest of the iteration body, so the
five pushes, the `tokio::spawn` call and the five `draw_chart` calls all run
before the guard is dropped at the end of the iteration. -/
def cycle_trace : List Ev :=
  [Ev.lock, Ev.push 0, Ev.push 1, Ev.push 2, Ev.push 3, Ev.push 4,
    Ev.spawnPersist, Ev.render 0, Ev.render 1, Ev.render 2, Ev.render 3,
    Ev.render 4, Ev.unlock]

/-- The events of a trace that execute while the lock is held, given whether
it is held at the start of the trace. -/
def events_under_lock : List Ev → Bool → List Ev
  | [], _ => []
  | Ev.lock :: rest, _ => events_under_lock rest true
  | Ev.unlock :: rest, _ => events_under_lock rest false
  | e :: rest, true => e :: events_under_lock rest true
  | _ :: rest, false => events_under_lock rest false

/-- A concrete healthy bus: registers 0 to 3 read voltage 100, current 10,
heat 20, speed 1500 (the fixed raw sequence of the end-to-end scenario). -/
def busC1 : Nat → Except TransportError (Fin 65536) := fun a =>
  if a = 0 then Except.ok ⟨100, by norm_num⟩
  else if a = 1 then Except.ok ⟨10, by norm_num⟩
  else if a = 2 then Except.ok ⟨20, by norm_num⟩
  else Except.ok ⟨1500, by norm_num⟩

/-- A bus whose very first read times out. -/
def busBad : Nat → Except TransportError (Fin 65536) := fun _ =>
  Except.error TransportError.timeout

/-- The sample `read_modbus_data` derives from `busC1` at wall-clock 0:
power 100 * 10 / 1000 = 1 kW, torque the literal 10.1, speed 1500, heat 20,
cycles 10.1 * 1.0 = 10.1. -/
def dC1 : MotorData :=
  { timestamp := 0
    current_power := 1
    current_torque := 101 / 10
    current_speed := 1500
    current_heat := 20
    current_cycles := 101 / 10 }

/-! Helper lemmas shared by several claims. -/

/-- Reducing `read_modbus_data` when all four register reads succeed. -/
theorem read_modbus_data_ok (bus : Nat → Except TransportError (Fin 65536))
    (now : Int) (v0 v1 v2 v3 : Fin 65536)
    (h0 : bus 0 = Except.ok v0) (h1 : bus 1 = Except.ok v1)
    (h2 : bus 2 = Except.ok v2) (h3 : bus 3 = Except.ok v3) :
    read_modbus_data bus now = Except.ok
      { timestamp := now
        current_power := calculate_power (v0.val : ℚ) (v1.val : ℚ)
        current_torque := 101 / 10
        current_speed := (v3.val : ℚ)
        current_heat := (v2.val : ℚ)
        current_cycles := calculate_cycles (101 / 10) 1 } := by
  simp only [read_modbus_data, h0, h1, h2, h3]

/-- A successful derivation always carries the in-code torque literal and the
per-tick cycles value computed from it. -/
theorem read_ok_torque_cycles (bus : Nat → Except TransportError (Fin 65536))
    (now : Int) (d : MotorData) (h : read_modbus_data bus now = Except.ok d) :
    d.current_torque = 101 / 10 ∧ d.current_cycles = calculate_cycles (101 / 10) 1 := by
  cases h0 : bus 0 with
  | error e =>
    simp only [read_modbus_data, h0] at h
    exact Except.noConfusion h
  | ok v0 =>
    cases h1 : bus 1 with
    | error e =>
      simp only [read_modbus_data, h0, h1] at h
      exact Except.noConfusion h
    | ok v1 =>
      cases h2 : bus 2 with
      | error e =>
        simp only [read_modbus_data, h0, h1, h2] at h
        exact Except.noConfusion h
      | ok v2 =>
        cases h3 : bus 3 with
        | error e =>
          simp only [read_modbus_data, h0, h1, h2, h3] at h
          exact Except.noConfusion h
        | ok v3 =>
          rw [read_modbus_data_ok bus now v0 v1 v2 v3 h0 h1 h2 h3] at h
          cases h
          exact ⟨rfl, rfl⟩

/-- The sample derived from the healthy concrete bus at wall-clock 0. -/
theorem read_busC1_eq : read_modbus_data busC1 0 = Except.ok dC1 := by
  simp only [read_modbus_data, busC1, reduceIte, dC1, calculate_power, calculate_cycles,
    Except.ok.injEq, MotorData.mk.injEq]
  norm_num

/-- Buffer growth: each completed cycle adds exactly its five pushes. -/
theorem foldl_append_cycle_length (ds : List MotorData) (buf : List (Int × ℚ)) :
    (List.foldl append_cycle buf ds).length = buf.length + 5 * ds.length := by
  induction ds generalizing buf with
  | nil => simp
  | cons d rest ih =>
    rw [List.foldl_cons, ih]
    simp only [append_cycle, List.length_append, List.length_cons, List.length_nil]
    omega

/-- Repeated inserts are exactly the appended rows of their samples. -/
theorem insert_foldl (store : List Row) (samples : List MotorData) :
    List.foldl insert_motor_data store samples = store ++ samples.map rowOf := by
  induction samples generalizing store with
  | nil => simp
  | cons d rest ih => simp [insert_motor_data, ih]

/-- A NaN-free left fold of `f64::max` computes a genuine maximum: it returns
a value at least the seed, an upper bound of the folded values, attained by
the seed or one of them. -/
theorem foldl_fmax_fin (l : List FVal) (a : ℚ)
    (hfin : ∀ x ∈ l, ∃ q, x = FVal.fin q) :
    ∃ m, List.foldl fmax (FVal.fin a) l = FVal.fin m ∧ a ≤ m ∧
      (∀ q, FVal.fin q ∈ l → q ≤ m) ∧ (m = a ∨ FVal.fin m ∈ l) := by
  induction l generalizing a with
  | nil => exact ⟨a, rfl, le_rfl, by simp, Or.inl rfl⟩
  | cons x rest ih =>
    obtain ⟨q, rfl⟩ := hfin x (List.mem_cons_self x rest)
    obtain ⟨m, hm, ham, hub, hmem⟩ :=
      ih (max a q) (fun y hy => hfin y (List.mem_cons_of_mem _ hy))
    refine ⟨m, ?_, le_trans (le_max_left a q) ham, ?_, ?_⟩
    · simpa [fmax] using hm
    · intro r hr
      rcases List.mem_cons.mp hr with h | h
      · have hrq : r = q := FVal.fin.inj h
        subst hrq
        exact le_trans (le_max_right a r) ham
      · exact hub r h
    · rcases hmem with h | h
      · rcases max_choice a q with hc | hc
        · exact Or.inl (h.trans hc)
        · exact Or.inr (by rw [h, hc]; exact List.mem_cons_self _ _)
      · exact Or.inr (List.mem_cons_of_mem _ h)

/-- The y-axis fold of `draw_chart` on a non-empty all-finite series is the
maximum of the series values. -/
theorem chart_y_max_spec (data : List (Int × FVal)) (hne : data ≠ [])
    (hfin : ∀ p ∈ data, ∃ q, p.2 = FVal.fin q) :
    ∃ m, chart_y_max data = FVal.fin m ∧
      (∀ p ∈ data, ∀ q, p.2 = FVal.fin q → q ≤ m) ∧
      (∃ p ∈ data, p.2 = FVal.fin m) := by
  cases data with
  | nil => exact absurd rfl hne
  | cons p rest =>
    obtain ⟨q0, hq0⟩ := hfin p (List.mem_cons_self p rest)
    have hrest : ∀ x ∈ rest.map Prod.snd, ∃ q, x = FVal.fin q := by
      intro x hx
      obtain ⟨p2, hp2, rfl⟩ := List.mem_map.mp hx
      exact hfin p2 (List.mem_cons_of_mem _ hp2)
    obtain ⟨m, hm, ham, hub, hmem⟩ := foldl_fmax_fin (rest.map Prod.snd) q0 hrest
    refine ⟨m, ?_, ?_, ?_⟩
    · unfold chart_y_max
      rw [List.map_cons, List.foldl_cons, hq0]
      simpa [fmax] using hm
    · intro p2 hp2 q hq
      rcases List.mem_cons.mp hp2 with h | h
      · rw [h, hq0] at hq
        cases hq
        exact ham
      · exact hub q (List.mem_map.mpr ⟨p2, h, hq⟩)
    · rcases hmem with h | h
      · exact ⟨p, List.mem_cons_self p rest, by rw [hq0, h]⟩
      · obtain ⟨p2, hp2, hp2v⟩ := List.mem_map.mp h
        exact ⟨p2, List.mem_cons_of_mem _ hp2, hp2v⟩

/-! The claims. -/

/-- C1 (code bug in the source): the spec's Rolling Buffer keeps, per
channel, a separate sequence gaining one entry per cycle; the source instead
pushes all five channel values of a cycle into one shared `Vec`, so after the
one completed cycle driven by `busC1` the single buffer holds 5 mixed
entries (power, torque, speed, heat, cycles at the same timestamp), and that
one mixed sequence is what every per-channel chart call receives. -/
theorem C1_single_shared_buffer :
    read_modbus_data busC1 0 = Except.ok dC1 ∧
      append_cycle [] dC1 =
        [(0, 1), (0, 101 / 10), (0, 1500), (0, 20), (0, 101 / 10)] ∧
      (append_cycle [] dC1).length = 5 := by
  refine ⟨read_busC1_eq, ?_, rfl⟩
  simp [append_cycle, dC1]

/-- C2: for all non-negative voltage and current, the derived power is
`voltage * current / 1000`, and it vanishes when either factor is zero. -/
theorem C2_power_formula (v a : ℚ) (hv : 0 ≤ v) (ha : 0 ≤ a) :
    calculate_power v a = v * a / 1000 ∧ (v = 0 ∨ a = 0 → calculate_power v a = 0) := by
  refine ⟨rfl, ?_⟩
  rintro (rfl | rfl) <;> simp [calculate_power]

/-- Witness for C2 at voltage 0, current 5. -/
theorem C2_power_formula_witness :
    calculate_power 0 5 = 0 * 5 / 1000 ∧
      ((0 : ℚ) = 0 ∨ (5 : ℚ) = 0 → calculate_power 0 5 = 0) :=
  C2_power_formula 0 5 le_rfl (by norm_num)

/-- C3 (code bug in the source): on an empty series `draw_chart` panics at
`data.first().unwrap()` instead of returning the `RenderError` its own
`Result` return type provides for, while a single-point series is rendered
without panic, with x range [5, 5] and y range [0, 7] handed to the
backend. -/
theorem C3_empty_series_panics :
    draw_chart [] = DrawResult.panic ∧
      draw_chart [((5 : Int), FVal.fin 7)] =
        DrawResult.artifact 5 5 (FVal.fin 0) (FVal.fin 7) :=
  ⟨rfl, rfl⟩

/-- C4: every successful cycle's `current_cycles` is the local per-tick value
`calculate_cycles torque period` with the in-code torque and period; it does
not depend on any other cycle's inputs (no running total), so any two
successful cycles carry the same value. -/
theorem C4_cycles_local (bus bus2 : Nat → Except TransportError (Fin 65536))
    (now now2 : Int) (d d2 : MotorData)
    (h : read_modbus_data bus now = Except.ok d)
    (h2 : read_modbus_data bus2 now2 = Except.ok d2) :
    d.current_cycles = calculate_cycles (101 / 10) 1 ∧
      d.current_cycles = d2.current_cycles := by
  have hd := (read_ok_torque_cycles bus now d h).2
  have hd2 := (read_ok_torque_cycles bus2 now2 d2 h2).2
  exact ⟨hd, by rw [hd, hd2]⟩

/-- Witness for C4 on the concrete healthy bus, twice. -/
theorem C4_cycles_local_witness :
    dC1.current_cycles = calculate_cycles (101 / 10) 1 ∧
      dC1.current_cycles = dC1.current_cycles :=
  C4_cycles_local busC1 busC1 0 0 dC1 dC1 read_busC1_eq read_busC1_eq

/-- C5: for a non-empty series of finite values the y axis runs from 0 to the
maximum of the values, and on `[(0, 1.0), (1, 3.0), (2, 2.0)]` the chosen
upper bound is 3. -/
theorem C5_y_axis_spans_max :
    (∀ data : List (Int × FVal), data ≠ [] →
      (∀ p ∈ data, ∃ q, p.2 = FVal.fin q) →
      ∃ x0 x1 m, draw_chart data = DrawResult.artifact x0 x1 (FVal.fin 0) (FVal.fin m) ∧
        (∀ p ∈ data, ∀ q, p.2 = FVal.fin q → q ≤ m) ∧
        (∃ p ∈ data, p.2 = FVal.fin m)) ∧
      draw_chart [((0 : Int), FVal.fin 1), (1, FVal.fin 3), (2, FVal.fin 2)] =
        DrawResult.artifact 0 2 (FVal.fin 0) (FVal.fin 3) := by
  constructor
  · intro data hne hfin
    obtain ⟨m, hm, hub, hmem⟩ := chart_y_max_spec data hne hfin
    cases data with
    | nil => exact absurd rfl hne
    | cons p rest =>
      have hsome : (p :: rest).getLast?.isSome := List.getLast?_isSome.mpr (by simp)
      obtain ⟨last, hlast⟩ := Option.isSome_iff_exists.mp hsome
      refine ⟨p.1, last.1, m, ?_, hub, hmem⟩
      unfold draw_chart
      rw [List.head?_cons, hlast, hm]
  · simp [draw_chart, chart_y_max, fmax]
    norm_num [max_def]

/-- Witness for C5 on the three-point series of the claim. -/
theorem C5_y_axis_spans_max_witness :
    ∃ x0 x1 m,
      draw_chart [((0 : Int), FVal.fin 1), (1, FVal.fin 3), (2, FVal.fin 2)] =
        DrawResult.artifact x0 x1 (FVal.fin 0) (FVal.fin m) ∧
      (∀ p ∈ [((0 : Int), FVal.fin 1), (1, FVal.fin 3), (2, FVal.fin 2)],
        ∀ q, p.2 = FVal.fin q → q ≤ m) ∧
      (∃ p ∈ [((0 : Int), FVal.fin 1), (1, FVal.fin 3), (2, FVal.fin 2)],
        p.2 = FVal.fin m) :=
  C5_y_axis_spans_max.1 _ (by simp)
    (by intro p hp; fin_cases hp <;> exact ⟨_, rfl⟩)

/-- C6: when all four reads succeed, `read_modbus_data` issues exactly the
four single-register requests at addresses 0, 1, 2, 3 in that order and
derives a sample; a failure of any of the four aborts the whole cycle's
derivation with the transport error. -/
theorem C6_fixed_order_reads (bus : Nat → Except TransportError (Fin 65536))
    (now : Int) :
    ((∀ a, a < 4 → ∃ v, bus a = Except.ok v) →
      modbus_read_trace bus = [(0, 1), (1, 1), (2, 1), (3, 1)] ∧
        ∃ d, read_modbus_data bus now = Except.ok d) ∧
      ((∃ a, a < 4 ∧ ∃ e, bus a = Except.error e) →
        ∃ e, read_modbus_data bus now = Except.error e) := by
  constructor
  · intro hok
    obtain ⟨v0, h0⟩ := hok 0 (by norm_num)
    obtain ⟨v1, h1⟩ := hok 1 (by norm_num)
    obtain ⟨v2, h2⟩ := hok 2 (by norm_num)
    obtain ⟨v3, h3⟩ := hok 3 (by norm_num)
    exact ⟨by simp only [modbus_read_trace, h0, h1, h2],
      ⟨_, read_modbus_data_ok bus now v0 v1 v2 v3 h0 h1 h2 h3⟩⟩
  · intro hbad
    cases h0 : bus 0 with
    | error e => exact ⟨e, by simp only [read_modbus_data, h0]⟩
    | ok v0 =>
      cases h1 : bus 1 with
      | error e => exact ⟨e, by simp only [read_modbus_data, h0, h1]⟩
      | ok v1 =>
        cases h2 : bus 2 with
        | error e => exact ⟨e, by simp only [read_modbus_data, h0, h1, h2]⟩
        | ok v2 =>
          cases h3 : bus 3 with
          | error e => exact ⟨e, by simp only [read_modbus_data, h0, h1, h2, h3]⟩
          | ok v3 =>
            obtain ⟨a, ha, e, hae⟩ := hbad
            interval_cases a <;> simp_all

/-- Witness for C6: the healthy bus yields the four-read trace and a sample;
a bus whose first read times out aborts the cycle. -/
theorem C6_fixed_order_reads_witness :
    (modbus_read_trace busC1 = [(0, 1), (1, 1), (2, 1), (3, 1)] ∧
      ∃ d, read_modbus_data busC1 0 = Except.ok d) ∧
      ∃ e, read_modbus_data busBad 0 = Except.error e :=
  ⟨(C6_fixed_order_reads busC1 0).1
      (by intro a ha; interval_cases a <;> exact ⟨_, rfl⟩),
    (C6_fixed_order_reads busBad 0).2 ⟨0, by norm_num, TransportError.timeout, rfl⟩⟩

/-- C7: whatever the outcomes of the asynchronously dispatched inserts, the
scheduler loop runs every cycle to completion: the shared buffer evolves
exactly as the appends dictate, gaining five entries per cycle, with the
insert outcomes never consulted. -/
theorem C7_storage_failure_isolated (ds : List MotorData)
    (os : List (Except StorageError Unit)) (buf : List (Int × ℚ))
    (store : List Row) (h : os.length = ds.length) :
    (run_cycles (ds.zip os) (buf, store)).1 = List.foldl append_cycle buf ds ∧
      (run_cycles (ds.zip os) (buf, store)).1.length = buf.length + 5 * ds.length := by
  have main : ∀ ds2 : List MotorData, ∀ os2 : List (Except StorageError Unit),
      ∀ buf2 : List (Int × ℚ), ∀ store2 : List Row, os2.length = ds2.length →
      (run_cycles (ds2.zip os2) (buf2, store2)).1 = List.foldl append_cycle buf2 ds2 := by
    intro ds2
    induction ds2 with
    | nil => intro os2 buf2 store2 _; simp [run_cycles]
    | cons d rest ih =>
      intro os2 buf2 store2 hlen
      cases os2 with
      | nil => simp at hlen
      | cons o orest =>
        rw [List.zip_cons_cons, List.foldl_cons]
        exact ih orest (append_cycle buf2 d) _ (by simpa using hlen)
  refine ⟨main ds os buf store h, ?_⟩
  rw [main ds os buf store h]
  exact foldl_append_cycle_length ds buf

/-- Witness for C7: one cycle whose insert fails with a `StorageError` still
appends its five entries to the buffer. -/
theorem C7_storage_failure_isolated_witness :
    (run_cycles ([dC1].zip [Except.error StorageError.writeFailure]) ([], [])).1 =
        List.foldl append_cycle [] [dC1] ∧
      (run_cycles ([dC1].zip [Except.error StorageError.writeFailure]) ([], [])).1.length =
        ([] : List (Int × ℚ)).length + 5 * [dC1].length :=
  C7_storage_failure_isolated [dC1] [Except.error StorageError.writeFailure] [] [] rfl

/-- C8: each insert appends exactly one row whose six columns are the
sample's fields, column for column, and inserting K samples (in whatever
serialization order the concurrent tasks complete) appends exactly K rows,
one per sample. -/
theorem C8_insert_exact_rows (store : List Row) (samples : List MotorData) :
    List.foldl insert_motor_data store samples = store ++ samples.map rowOf ∧
      (List.foldl insert_motor_data store samples).length =
        store.length + samples.length ∧
      ∀ d : MotorData, insert_motor_data store d = store ++ [rowOf d] ∧
        (rowOf d).timestamp = d.timestamp ∧
        (rowOf d).current_power = d.current_power ∧
        (rowOf d).current_torque = d.current_torque ∧
        (rowOf d).current_speed = d.current_speed ∧
        (rowOf d).current_heat = d.current_heat ∧
        (rowOf d).current_cycles = d.current_cycles := by
  refine ⟨insert_foldl store samples, ?_, ?_⟩
  · rw [insert_foldl store samples]; simp
  · intro d; exact ⟨rfl, rfl, rfl, rfl, rfl, rfl, rfl⟩

/-- C9 counterexample: the render calls do execute while the `motor_data`
lock is held (the guard lives to the end of the loop iteration), refuting the
claim that the lock is never held across a rendering call. -/
theorem C9_lock_counterexample :
    Ev.render 0 ∈ events_under_lock cycle_trace false ∧
      Ev.render 4 ∈ events_under_lock cycle_trace false := by
  exact ⟨by decide, by decide⟩

/-- C9 as amended: the lock is taken once per iteration and held from before
the five pushes through the spawn and all five render calls — so append and
render are mutually exclusive and a render can never observe a
partially-applied append, but the lock is held across rendering, not for the
shortest span. -/
theorem C9_lock_scope :
    events_under_lock cycle_trace false =
      [Ev.push 0, Ev.push 1, Ev.push 2, Ev.push 3, Ev.push 4, Ev.spawnPersist,
        Ev.render 0, Ev.render 1, Ev.render 2, Ev.render 3, Ev.render 4] := by
  decide

/-- C10: whatever the four register values, a successful derivation produces
`current_torque = 10.1` and `current_cycles = 10.1`: torque is the in-code
literal 10.1 and cycles is 10.1 times the in-code period literal 1.0. -/
theorem C10_constant_torque_and_cycles (bus : Nat → Except TransportError (Fin 65536))
    (now : Int) (d : MotorData) (h : read_modbus_data bus now = Except.ok d) :
    d.current_torque = 101 / 10 ∧ d.current_cycles = 101 / 10 := by
  obtain ⟨ht, hc⟩ := read_ok_torque_cycles bus now d h
  exact ⟨ht, by rw [hc]; simp [calculate_cycles]⟩

/-- Witness for C10 on the concrete healthy bus. -/
theorem C10_constant_torque_and_cycles_witness :
    dC1.current_torque = 101 / 10 ∧ dC1.current_cycles = 101 / 10 :=
  C10_constant_torque_and_cycles busC1 0 dC1 read_busC1_eq

end codesys
